import Mathlib

/-!
Shallow embedding of the training/inference orchestration logic of
`baseline/train.py` and `baseline/inference.py`.

Modelling conventions:
* Python float arithmetic is idealized as exact arithmetic over `ℚ`
  (or `ℝ` where the code applies the exponential function, i.e. softmax).
* `numpy` float division `x / 0` of a zero numerator (the only shape that
  occurs here, `np.sum([]) / 0`) yields NaN; NaN-valued reals are modelled
  as `none : Option ℚ`.  Python comparisons against NaN are always false,
  which the `pyMin` / `pyMax` / matcher definitions below reproduce.
* `np.inf` (the initial `best_val_loss`) is modelled as `⊤ : WithTop ℚ`.
* A `DataLoader` over a fixed (unshuffled) dataset with `drop_last=True`
  yields the consecutive size-`B` chunks of the dataset, dropping the
  partial tail; with `drop_last=False` it also yields the partial tail.
  Chunking is defined with a structural fuel argument (fuel = list length)
  so every definition reduces in the kernel.
* Model forward passes are external; a validation sample is embedded as a
  `(prediction, label)` pair and a loss criterion as an abstract function
  from a batch to a rational.
* Checkpoint files on disk are embedded as `Option ℕ` cells (`none` =
  file absent, `some p` = file holding a snapshot of parameter state `p`).
-/

/-- Consecutive chunks of size `B`, dropping the partial tail
(`DataLoader` with `drop_last=True`); `fuel` is a structural recursion
bound, adequate whenever `l.length ≤ fuel`. -/
def chunksFull (B : ℕ) : ℕ → List α → List (List α)
  | 0, _ => []
  | fuel + 1, l =>
    if 0 < B ∧ B ≤ l.length then l.take B :: chunksFull B fuel (l.drop B) else []

/-- Batches yielded by a `drop_last=True` loader over `l` (train.py lines
146-162, 295-311: both loaders pass `drop_last=True`). -/
def fullChunks (B : ℕ) (l : List α) : List (List α) :=
  chunksFull B l.length l

/-- Consecutive chunks of size `B`, keeping the partial tail
(`DataLoader` with `drop_last=False`, inference.py line 59). -/
def chunksAll (B : ℕ) : ℕ → List α → List (List α)
  | 0, _ => []
  | fuel + 1, l =>
    if 0 < B ∧ 0 < l.length then l.take B :: chunksAll B fuel (l.drop B) else []

/-- Batches yielded by a `drop_last=False` loader over `l`. -/
def allChunks (B : ℕ) (l : List α) : List (List α) :=
  chunksAll B l.length l

/-- Static configuration of a `DataLoader` as constructed by the code. -/
structure DataLoaderCfg where
  shuffle : Bool
  dropLast : Bool
deriving DecidableEq

/-- train.py lines 146-153: the single-task train loader. -/
def maskTrainLoaderCfg : DataLoaderCfg := ⟨true, true⟩

/-- train.py lines 155-162: the single-task validation loader. -/
def maskValLoaderCfg : DataLoaderCfg := ⟨false, true⟩

/-- train.py lines 295-302: the multi-task train loader. -/
def gaTrainLoaderCfg : DataLoaderCfg := ⟨true, true⟩

/-- train.py lines 304-311: the multi-task validation loader. -/
def gaValLoaderCfg : DataLoaderCfg := ⟨false, true⟩

/-- First index of a maximal element (`torch.argmax(..., dim=-1)` per row:
ties resolve to the first maximal index).  Auxiliary: index of the first
maximum together with the maximal value. -/
def argmaxAux [LinearOrder α] : List α → Option (ℕ × α)
  | [] => none
  | x :: xs =>
    match argmaxAux xs with
    | none => some (0, x)
    | some jm => if x < jm.2 then some (jm.1 + 1, jm.2) else some (0, x)

/-- Index of the first maximal element of a row of logits. -/
def argmaxIdx [LinearOrder α] (l : List α) : ℕ :=
  ((argmaxAux l).map Prod.fst).getD 0

/-- The number of output classes of the single-head inference model
(`MaskBaseDataset.num_classes`, inference.py line 40). -/
def numClasses : ℕ := 18

/-- inference.py lines 63-73 in hard voting mode: iterate the batches of a
`drop_last=False` loader, take the per-sample argmax of the model logits,
and extend the accumulator in order.  The model forward pass is external,
so a batch is embedded as the list of per-sample logit rows it produces. -/
def inferenceHardPreds (B : ℕ) (logits : List (List ℚ)) : List ℕ :=
  ((allChunks B logits).map (fun batch => batch.map argmaxIdx)).flatten

/-- inference.py line 76 (`info[ans] = preds`, assigning the predictions column) followed by `to_csv`:
one output row per manifest row, pairing the image identifier with its
predicted class. -/
def hardRows (ids : List String) (preds : List ℕ) : List (String × ℕ) :=
  ids.zip preds

/-- Effect of assigning the `ans` column on the column list of the manifest:
an existing `ans` column is overwritten in place, otherwise a new `ans`
column is appended. -/
def hardOutputColumns (cols : List String) : List String :=
  if "ans" ∈ cols then cols else cols ++ ["ans"]

/-- inference.py lines 81-84: the soft-mode output header, `ImageID`
followed by one column per class named `0`, `1`, ..., `num_classes - 1`. -/
def softOutputColumns : List String :=
  "ImageID" :: (List.range numClasses).map Nat.repr

/-- Column drop of pandas, `DataFrame.drop(columns=[c])`, with the default
raising error mode: `none` models the raised `KeyError` when the label is
absent. -/
def dropColumn (cols : List String) (c : String) : Option (List String) :=
  if c ∈ cols then some (cols.filter (fun x => x ≠ c)) else none

/-- inference.py lines 78-84 in soft voting mode: drop the `ans` column
(raising a `KeyError` if absent), stack the remaining columns with the 18
probability columns (`pd.np.column_stack([info, preds])`), then assign
the 19-name soft-mode header — `info.columns = columns_name` raises a
`ValueError` unless the stacked frame has exactly
`softOutputColumns.length` columns, i.e. exactly one column survives the
drop.  Both error paths precede `to_csv` and are modelled as `none`. -/
def softPrepare (cols : List String) : Option (List String) :=
  (dropColumn cols "ans").bind
    (fun kept =>
      if kept.length + numClasses = softOutputColumns.length then
        some softOutputColumns
      else none)

/-- The `--voting_type` flag of inference.py. -/
inductive VotingType where
  | hard
  | soft
deriving DecidableEq

/-- Columns of `output.csv` as a function of the voting type and the
columns of the manifest; `none` models an exception raised before the file is
written (inference.py lines 75-87). -/
def inferenceOutputColumns : VotingType → List String → Option (List String)
  | VotingType.hard, cols => some (hardOutputColumns cols)
  | VotingType.soft, cols => softPrepare cols

/-- Softmax, `nn.Softmax(dim=1)`, applied to one row of logits (inference.py
lines 64, 72), idealized over the reals. -/
noncomputable def softmax (l : List ℝ) : List ℝ :=
  l.map (fun x => Real.exp x / (l.map Real.exp).sum)

/-- The two running accumulators of the training-window metric aggregator
(`loss_value` and `matches`, train.py lines 189-190); `matches` is rendered
as `matchCount` because `matches` is a Lean keyword. -/
structure MetricAgg where
  lossValue : ℚ
  matchCount : ℕ
deriving DecidableEq

/-- train.py lines 189-190 (and 352-354): accumulators start at zero. -/
def MetricAgg.init : MetricAgg := ⟨0, 0⟩

/-- train.py lines 205-206: one `add` of a batch loss and a correct
count. -/
def MetricAgg.add (s : MetricAgg) (loss : ℚ) (correct : ℕ) : MetricAgg :=
  ⟨s.lossValue + loss, s.matchCount + correct⟩

/-- train.py lines 207-219: the periodic flush.  Reports
`loss_value / log_interval` and `matches / batch_size / log_interval`,
then resets both accumulators to zero. -/
def MetricAgg.flush (s : MetricAgg) (logInterval batchSize : ℕ) :
    (ℚ × ℚ) × MetricAgg :=
  ((s.lossValue / (logInterval : ℚ),
    (s.matchCount : ℚ) / (batchSize : ℚ) / (logInterval : ℚ)),
   MetricAgg.init)

/-- Correct-prediction count of one batch of `(prediction, label)` pairs
(`(labels == preds).sum().item()`, train.py lines 206, 239, 426). -/
def correctCount (b : List (ℕ × ℕ)) : ℕ :=
  b.countP (fun sp => sp.1 == sp.2)

/-- train.py lines 227-241, 251: the epoch validation accuracy,
`np.sum(val_acc_items) / len(val_set)`.  `val_acc_items` holds one
correct count per yielded (`drop_last=True`) batch; `none` models the NaN
produced by `0.0 / 0` when the validation set is empty. -/
def valAccOf (B : ℕ) (valSet : List (ℕ × ℕ)) : Option ℚ :=
  if valSet.length = 0 then none
  else some ((((fullChunks B valSet).map correctCount).sum : ℚ) / (valSet.length : ℚ))

/-- train.py lines 227-240, 250: the epoch validation loss,
`np.sum(val_loss_items) / len(val_loader)`, one criterion value per
yielded batch; `none` models the NaN of `0.0 / 0` when the loader yields
no batch. -/
def valLossOf (B : ℕ) (valSet : List (ℕ × ℕ)) (crit : List (ℕ × ℕ) → ℚ) :
    Option ℚ :=
  if (fullChunks B valSet).length = 0 then none
  else some (((fullChunks B valSet).map crit).sum / ((fullChunks B valSet).length : ℚ))

/-- train.py lines 229, 243-248: the visualization figure is materialized
on the first yielded validation batch only, and stays `None` when the
loader yields no batch. -/
def maskValFigureCreated (B : ℕ) (valSet : List (ℕ × ℕ)) : Bool :=
  !(fullChunks B valSet).isEmpty

/-- Python `min(b, v)` where `b` may be `np.inf` (`⊤`) and `v` may be NaN
(`none`): `min` keeps its first argument when the second compares false,
so NaN never replaces it (train.py line 252). -/
def pyMin (b : WithTop ℚ) (v : Option ℚ) : WithTop ℚ :=
  match v with
  | none => b
  | some q => if (q : WithTop ℚ) < b then (q : WithTop ℚ) else b

/-- Python `max(b, v)` where `v` may be NaN (`none`): NaN compares false
and never replaces the first argument (train.py line 442). -/
def pyMax (b : ℚ) (v : Option ℚ) : ℚ :=
  match v with
  | none => b
  | some q => max b q

/-- Cross-epoch state of the single-task loop that survives an epoch:
the learnable parameters (abstracted as a snapshot id mutated by the train
phase), the best-metric cells of lines 184-185, and the two checkpoint
files (`none` = absent). -/
structure MaskRunState where
  params : ℕ
  bestValAcc : ℚ
  bestValLoss : WithTop ℚ
  bestCkpt : Option ℕ
  lastCkpt : Option ℕ
deriving DecidableEq

/-- train.py lines 184-185: `best_val_acc = 0`, `best_val_loss = np.inf`;
no checkpoint file exists before the first epoch ends. -/
def maskInit (p : ℕ) : MaskRunState :=
  ⟨p, 0, ⊤, none, none⟩

/-- train.py lines 224-265: the single-task VALIDATE phase and epoch-end
checkpointing.  Computes the epoch metrics, updates `best_val_loss`
(line 252), overwrites `best.pth` only when `val_acc > best_val_acc`
(lines 253-256), and unconditionally overwrites `last.pth` (line 257). -/
def maskEpochVal (B : ℕ) (valSet : List (ℕ × ℕ)) (crit : List (ℕ × ℕ) → ℚ)
    (s : MaskRunState) : MaskRunState :=
  let valLoss := valLossOf B valSet crit
  let valAcc := valAccOf B valSet
  let s1 : MaskRunState := { s with bestValLoss := pyMin s.bestValLoss valLoss }
  let s2 : MaskRunState :=
    match valAcc with
    | some a =>
      if s1.bestValAcc < a then
        { s1 with bestCkpt := some s1.params, bestValAcc := a }
      else s1
    | none => s1
  { s2 with lastCkpt := some s2.params }

/-- train.py lines 186-265: one full epoch of the single-task loop; the
TRAIN phase mutates the parameters through the optimizer steps
(abstracted as `trainStep`), then the VALIDATE phase runs. -/
def maskEpoch (trainStep : ℕ → ℕ) (B : ℕ) (valSet : List (ℕ × ℕ))
    (crit : List (ℕ × ℕ) → ℚ) (s : MaskRunState) : MaskRunState :=
  maskEpochVal B valSet crit { s with params := trainStep s.params }

/-- Cross-epoch state of the multi-task loop (train.py lines 347-348 plus
the two checkpoint files). -/
structure GaRunState where
  params : ℕ
  bestValGenderAcc : ℚ
  bestValLoss : WithTop ℚ
  bestCkpt : Option ℕ
  lastCkpt : Option ℕ
deriving DecidableEq

/-- train.py lines 347-348: `best_val_gender_acc = 0`,
`best_val_loss = np.inf`; no checkpoint file exists yet. -/
def gaInit (p : ℕ) : GaRunState :=
  ⟨p, 0, ⊤, none, none⟩

/-- train.py lines 438-443: the multi-task combined validation loss
`val_gender_loss + val_age_loss`; NaN-propagating (`none` when the loader
yields no batch). -/
def gaValLoss (B : ℕ) (valSet : List (ℕ × ℕ))
    (gCrit aCrit : List (ℕ × ℕ) → ℚ) : Option ℚ :=
  match valLossOf B valSet gCrit, valLossOf B valSet aCrit with
  | some g, some a => some (g + a)
  | _, _ => none

/-- train.py lines 405-457: the multi-task VALIDATE phase and epoch-end
checkpointing.  A validation sample is embedded as its
(gender prediction, gender label) pair; the two criteria are abstract
per-batch losses.  `best_val_gender_acc` is tracked (line 442),
`best.pth` is overwritten only when the combined loss strictly improves
(lines 444-447), `last.pth` unconditionally (line 448). -/
def gaEpochVal (B : ℕ) (valSet : List (ℕ × ℕ))
    (gCrit aCrit : List (ℕ × ℕ) → ℚ) (s : GaRunState) : GaRunState :=
  let vGAcc := valAccOf B valSet
  let vLoss := gaValLoss B valSet gCrit aCrit
  let s1 : GaRunState := { s with bestValGenderAcc := pyMax s.bestValGenderAcc vGAcc }
  let s2 : GaRunState :=
    match vLoss with
    | some q =>
      if (q : WithTop ℚ) < s1.bestValLoss then
        { s1 with bestCkpt := some s1.params, bestValLoss := (q : WithTop ℚ) }
      else s1
    | none => s1
  { s2 with lastCkpt := some s2.params }

/-- train.py lines 349-457: one full epoch of the multi-task loop. -/
def gaEpoch (trainStep : ℕ → ℕ) (B : ℕ) (valSet : List (ℕ × ℕ))
    (gCrit aCrit : List (ℕ × ℕ) → ℚ) (s : GaRunState) : GaRunState :=
  gaEpochVal B valSet gCrit aCrit { s with params := trainStep s.params }

/-- One per-batch step of the multi-task TRAIN phase as the ordered trace
of its framework effects (train.py lines 361-375). -/
inductive TrainEvent where
  | zeroGradGender
  | zeroGradAge
  | forwardPass
  | backwardGender (retainGraph : Bool)
  | backwardAge
  | stepGender
  | stepAge
deriving DecidableEq

/-- train.py lines 361-375: zero both optimizers, one shared forward
pass, gender backward with `retain_graph=True`, age backward, gender
step, age step. -/
def multiTaskStepTrace : List TrainEvent :=
  [TrainEvent.zeroGradGender, TrainEvent.zeroGradAge, TrainEvent.forwardPass,
   TrainEvent.backwardGender true, TrainEvent.backwardAge,
   TrainEvent.stepGender, TrainEvent.stepAge]

/-- train.py lines 324-327: the parameter groups of the gender optimizer,
shared backbone `res` at learning rate `1e-4` plus the gender head at the
configured rate. -/
def genderOptimizerGroups (lr : ℚ) : List (String × ℚ) :=
  [("res", 1 / 10000), ("fc_gender", lr)]

/-- train.py lines 329-332: the parameter groups of the age optimizer. -/
def ageOptimizerGroups (lr : ℚ) : List (String × ℚ) :=
  [("res", 1 / 10000), ("fc_age", lr)]

/-- Stem of the final path component, as `pathlib.PurePath.stem`: the component
after the last `/`, with its last extension removed when the last dot is
neither at index 0 nor the final character. -/
def pyStem (s : List Char) : List Char :=
  let name := (s.reverse.takeWhile (fun c => c ≠ '/')).reverse
  let tail := name.reverse.takeWhile (fun c => c ≠ '.')
  if tail.length = name.length then name
  else
    let i := name.length - tail.length - 1
    if 0 < i ∧ i < name.length - 1 then name.take i else name

/-- Numeric value of a digit run. -/
def digitsToNat (ds : List Char) : ℕ :=
  ds.foldl (fun n c => 10 * n + (c.toNat - '0'.toNat)) 0

/-- Search as `re.search(stem + r"(\d+)", s)` for a stem free of regex
metacharacters: scan left to right for the first position where the stem
occurs immediately followed by at least one digit, and return the value
of the maximal digit run there. -/
def reSearchNum (stem : List Char) : List Char → Option ℕ
  | [] => none
  | c :: rest =>
    let s := c :: rest
    let ds := (s.drop stem.length).takeWhile Char.isDigit
    if stem.isPrefixOf s ∧ ds ≠ [] then some (digitsToNat ds)
    else reSearchNum stem rest

/-- Globbing, `glob.glob` of the path followed by a star, over a modelled
directory listing: the
existing entries extending `path` without introducing a further path
separator. -/
def globSiblings (existing : List String) (path : String) : List String :=
  existing.filter
    (fun d => path.data.isPrefixOf d.data ∧ ¬ (d.data.drop path.data.length).contains '/')

/-- train.py lines 111-113: the numbers extracted from the glob matches
by `re.search(rf"%s(\d+)" % path.stem, d)`. -/
def siblingNumbers (existing : List String) (path : String) : List ℕ :=
  (globSiblings existing path).filterMap
    (fun d => reSearchNum (pyStem path.data) d.data)

/-- train.py line 114: `n = max(i) + 1 if i else 2`. -/
def nextSuffix (existing : List String) (path : String) : ℕ :=
  if (siblingNumbers existing path).isEmpty then 2
  else (siblingNumbers existing path).foldl max 0 + 1

/-- train.py lines 100-115, `increment_path`: the filesystem is modelled
by the list of existing paths.  Returns the path unchanged when it does
not exist, or exists with `exist_ok`; otherwise appends
`max(extracted numbers) + 1`, defaulting to `2`. -/
def increment_path (existing : List String) (path : String) (ok : Bool) :
    String :=
  if (path ∈ existing ∧ ok = true) ∨ path ∉ existing then path
  else path ++ Nat.repr (nextSuffix existing path)

theorem chunksFull_flatten (B : ℕ) :
    ∀ (fuel : ℕ) (l : List α), l.length ≤ fuel →
      (chunksFull B fuel l).flatten = l.take (B * (l.length / B)) := by
  intro fuel
  induction fuel with
  | zero =>
    intro l hl
    have h0 : l = [] := List.eq_nil_of_length_eq_zero (Nat.le_zero.mp hl)
    subst h0
    simp [chunksFull]
  | succ n ih =>
    intro l hl
    by_cases h : 0 < B ∧ B ≤ l.length
    · have hdrop : (l.drop B).length ≤ n := by
        rw [List.length_drop]
        omega
      have hrec := ih (l.drop B) hdrop
      have hdiv : l.length / B = (l.length - B) / B + 1 :=
        Nat.div_eq_sub_div h.1 h.2
      calc (chunksFull B (n + 1) l).flatten
          = l.take B ++ (chunksFull B n (l.drop B)).flatten := by
            simp [chunksFull, h]
        _ = l.take B ++ (l.drop B).take (B * ((l.drop B).length / B)) := by
            rw [hrec]
        _ = l.take (B + B * ((l.length - B) / B)) := by
            rw [List.length_drop, List.take_add]
        _ = l.take (B * (l.length / B)) := by
            rw [hdiv, Nat.mul_add, Nat.mul_one, Nat.add_comm]
    · have hB : B = 0 ∨ l.length < B := by
        rcases Nat.eq_zero_or_pos B with h0 | h1
        · exact Or.inl h0
        · exact Or.inr (by omega)
      rcases hB with h0 | h1
      · subst h0; simp [chunksFull]
      · have : l.length / B = 0 := Nat.div_eq_of_lt h1
        simp [chunksFull, h, this]

theorem fullChunks_flatten (B : ℕ) (l : List α) :
    (fullChunks B l).flatten = l.take (B * (l.length / B)) :=
  chunksFull_flatten B l.length l le_rfl

theorem chunksFull_length (B : ℕ) :
    ∀ (fuel : ℕ) (l : List α), l.length ≤ fuel →
      (chunksFull B fuel l).length = l.length / B := by
  intro fuel
  induction fuel with
  | zero =>
    intro l hl
    have h0 : l = [] := List.eq_nil_of_length_eq_zero (Nat.le_zero.mp hl)
    subst h0
    simp [chunksFull]
  | succ n ih =>
    intro l hl
    by_cases h : 0 < B ∧ B ≤ l.length
    · have hdrop : (l.drop B).length ≤ n := by
        rw [List.length_drop]
        omega
      have hrec := ih (l.drop B) hdrop
      have hdiv : l.length / B = (l.length - B) / B + 1 :=
        Nat.div_eq_sub_div h.1 h.2
      simp only [chunksFull, if_pos h, List.length_cons, hrec, List.length_drop]
      omega
    · have hB : B = 0 ∨ l.length < B := by
        rcases Nat.eq_zero_or_pos B with h0 | h1
        · exact Or.inl h0
        · exact Or.inr (by omega)
      rcases hB with h0 | h1
      · subst h0; simp [chunksFull]
      · have : l.length / B = 0 := Nat.div_eq_of_lt h1
        simp [chunksFull, h, this]

theorem fullChunks_length (B : ℕ) (l : List α) :
    (fullChunks B l).length = l.length / B :=
  chunksFull_length B l.length l le_rfl

theorem fullChunks_nil_of_lt (B : ℕ) (l : List α) (h : l.length < B) :
    fullChunks B l = [] := by
  unfold fullChunks
  have hcond : ¬ (0 < B ∧ B ≤ l.length) := by omega
  cases hl : l.length with
  | zero => simp [chunksFull]
  | succ n => simp [chunksFull, hcond]

theorem chunksAll_flatten (B : ℕ) (hB : 0 < B) :
    ∀ (fuel : ℕ) (l : List α), l.length ≤ fuel →
      (chunksAll B fuel l).flatten = l := by
  intro fuel
  induction fuel with
  | zero =>
    intro l hl
    have h0 : l = [] := List.eq_nil_of_length_eq_zero (Nat.le_zero.mp hl)
    subst h0
    simp [chunksAll]
  | succ n ih =>
    intro l hl
    by_cases h : l = []
    · subst h; simp [chunksAll]
    · have hlen : 0 < l.length := List.length_pos.mpr h
      have hdrop : (l.drop B).length ≤ n := by
        rw [List.length_drop]
        omega
      have hcond : 0 < B ∧ 0 < l.length := ⟨hB, hlen⟩
      simp only [chunksAll, if_pos hcond, List.flatten_cons, ih (l.drop B) hdrop]
      exact List.take_append_drop B l

theorem allChunks_flatten (B : ℕ) (hB : 0 < B) (l : List α) :
    (allChunks B l).flatten = l :=
  chunksAll_flatten B hB l.length l le_rfl

theorem metricAgg_foldl (adds : List (ℚ × ℕ)) :
    ∀ s : MetricAgg,
      adds.foldl (fun t a => t.add a.1 a.2) s =
        ⟨s.lossValue + (adds.map Prod.fst).sum,
         s.matchCount + (adds.map Prod.snd).sum⟩ := by
  induction adds with
  | nil => intro s; simp
  | cons a t ih =>
    intro s
    rw [List.foldl_cons, ih (s.add a.1 a.2)]
    simp only [MetricAgg.add, List.map_cons, List.sum_cons]
    congr 1 <;> ring

/-- C4: after `N = log_interval` adds of `(loss_i, correct_i)` starting
from zero accumulators, the flush reports
`sum loss_i / log_interval` and `sum correct_i / (batch_size * log_interval)`
and resets both accumulators, so a further flush with no adds reports
`(0, 0)`. -/
theorem metric_agg_flush_spec (adds : List (ℚ × ℕ)) (B : ℕ) :
    ((adds.foldl (fun t a => t.add a.1 a.2) MetricAgg.init).flush adds.length B).1
        = ((adds.map Prod.fst).sum / (adds.length : ℚ),
           (((adds.map Prod.snd).sum : ℕ) : ℚ) / ((B : ℚ) * (adds.length : ℚ)))
  ∧ ((adds.foldl (fun t a => t.add a.1 a.2) MetricAgg.init).flush adds.length B).2
        = MetricAgg.init
  ∧ (((adds.foldl (fun t a => t.add a.1 a.2) MetricAgg.init).flush adds.length B).2.flush
        adds.length B).1 = (0, 0) := by
  rw [metricAgg_foldl]
  refine ⟨?_, rfl, ?_⟩
  · simp [MetricAgg.flush, MetricAgg.init, div_div]
  · simp [MetricAgg.flush, MetricAgg.init]

/-- C7: in every multi-task training step the ordered effect trace zeroes
both optimizers, runs one shared forward pass, backpropagates the gender
loss with the graph retained, then the age loss, and only then steps the
gender and age optimizers — exactly one forward pass — and each optimizer
covers the shared backbone `res` at learning rate `1e-4` plus its own head
at the configured learning rate. -/
theorem multitask_step_order :
    multiTaskStepTrace.count TrainEvent.forwardPass = 1
  ∧ multiTaskStepTrace.indexOf TrainEvent.zeroGradGender
      < multiTaskStepTrace.indexOf TrainEvent.forwardPass
  ∧ multiTaskStepTrace.indexOf TrainEvent.zeroGradAge
      < multiTaskStepTrace.indexOf TrainEvent.forwardPass
  ∧ multiTaskStepTrace.indexOf TrainEvent.forwardPass
      < multiTaskStepTrace.indexOf (TrainEvent.backwardGender true)
  ∧ multiTaskStepTrace.indexOf (TrainEvent.backwardGender true)
      < multiTaskStepTrace.indexOf TrainEvent.backwardAge
  ∧ multiTaskStepTrace.indexOf TrainEvent.backwardAge
      < multiTaskStepTrace.indexOf TrainEvent.stepGender
  ∧ multiTaskStepTrace.indexOf TrainEvent.stepGender
      < multiTaskStepTrace.indexOf TrainEvent.stepAge
  ∧ TrainEvent.backwardGender false ∉ multiTaskStepTrace
  ∧ (∀ lr : ℚ,
        (genderOptimizerGroups lr).lookup "res" = some (1 / 10000)
      ∧ (genderOptimizerGroups lr).lookup "fc_gender" = some lr
      ∧ (ageOptimizerGroups lr).lookup "res" = some (1 / 10000)
      ∧ (ageOptimizerGroups lr).lookup "fc_age" = some lr) := by
  refine ⟨by decide, by decide, by decide, by decide, by decide, by decide,
    by decide, by decide, ?_⟩
  intro lr
  exact ⟨rfl, rfl, rfl, rfl⟩

/-- C9: soft-voting inference drops the `ans` column of the manifest
unconditionally, so a manifest holding only `ImageID` makes soft mode
raise (no output is assembled) while hard mode on the same manifest
succeeds with columns `ImageID, ans`; the standard `ImageID, ans`
manifest succeeds in soft mode.  In general soft mode raises before
writing exactly when the manifest has no `ans` column or when more than
the one `ImageID` column survives the drop (the header assignment at
inference.py line 84 then raises a length-mismatch `ValueError`). -/
theorem soft_drop_ans_error :
    inferenceOutputColumns VotingType.soft ["ImageID"] = none
  ∧ inferenceOutputColumns VotingType.hard ["ImageID"] = some ["ImageID", "ans"]
  ∧ inferenceOutputColumns VotingType.soft ["ImageID", "ans"]
      = some softOutputColumns
  ∧ inferenceOutputColumns VotingType.soft ["ImageID", "ans", "extra"] = none
  ∧ (∀ cols : List String, "ans" ∉ cols →
      inferenceOutputColumns VotingType.soft cols = none)
  ∧ (∀ cols : List String,
      inferenceOutputColumns VotingType.soft cols = none ↔
        ("ans" ∉ cols ∨ (cols.filter (fun x => x ≠ "ans")).length ≠ 1)) := by
  refine ⟨by decide, by decide, by decide, by decide, ?_, ?_⟩
  · intro cols h
    simp [inferenceOutputColumns, softPrepare, dropColumn, h]
  · intro cols
    by_cases h : "ans" ∈ cols
    · by_cases hk : (cols.filter (fun x => x ≠ "ans")).length = 1 <;>
        simp [inferenceOutputColumns, softPrepare, dropColumn, h, hk,
          softOutputColumns, numClasses]
    · simp [inferenceOutputColumns, softPrepare, dropColumn, h]

/-- Witness for `soft_drop_ans_error`: a manifest without an `ans`
column errors in soft mode. -/
theorem soft_drop_ans_error_witness :
    "ans" ∉ (["foo"] : List String)
  ∧ inferenceOutputColumns VotingType.soft ["foo"] = none :=
  ⟨by decide, soft_drop_ans_error.2.2.2.2.1 ["foo"] (by decide)⟩

/-- C5: hard-voting inference maps every sample of every batch to the
first arg-max index of its logits, accumulating in manifest order (the
batched computation equals the per-sample map over the whole manifest);
the documented example `[[5,1,0],[0,0,9]] ↦ [0,2]` holds, the output rows
pair each image identifier with its prediction one row per image, and
writing the `ans` column to the standard `ImageID, ans` manifest keeps
exactly those columns. -/
theorem inference_hard_spec :
    (∀ (B : ℕ) (logits : List (List ℚ)), 0 < B →
        inferenceHardPreds B logits = logits.map argmaxIdx)
  ∧ inferenceHardPreds 2 [[5, 1, 0], [0, 0, 9]] = [0, 2]
  ∧ (∀ (B : ℕ) (ids : List String) (logits : List (List ℚ)), 0 < B →
        ids.length = logits.length →
        hardRows ids (inferenceHardPreds B logits) = ids.zip (logits.map argmaxIdx)
      ∧ (hardRows ids (inferenceHardPreds B logits)).length = ids.length)
  ∧ hardOutputColumns ["ImageID", "ans"] = ["ImageID", "ans"] := by
  have key : ∀ (B : ℕ) (logits : List (List ℚ)), 0 < B →
      inferenceHardPreds B logits = logits.map argmaxIdx := by
    intro B logits hB
    unfold inferenceHardPreds
    rw [← List.map_flatten, allChunks_flatten B hB]
  refine ⟨key, by decide, ?_, by decide⟩
  intro B ids logits hB hlen
  rw [key B logits hB]
  constructor
  · rfl
  · rw [hardRows, List.length_zip, List.length_map, ← hlen, Nat.min_self]

/-- Witness for `inference_hard_spec`: instantiating the batched/unbatched
agreement at batch size 1 on a one-row manifest. -/
theorem inference_hard_spec_witness :
    0 < 1 ∧ inferenceHardPreds 1 [[(1 : ℚ)]] = [[(1 : ℚ)]].map argmaxIdx :=
  ⟨Nat.one_pos, inference_hard_spec.1 1 [[(1 : ℚ)]] Nat.one_pos⟩

/-- Counterexample to the no-collision guarantee of C2: for `path = "e.x"` the
stem is `e`, so the scan `re.search("e(\d+)", ·)` matches neither `e.x`
nor the existing sibling `e.x2`; the fallback suffix `2` is returned even
though `e.x2` already exists. -/
theorem increment_path_collision :
    increment_path ["e.x", "e.x2"] "e.x" false = "e.x2"
  ∧ "e.x2" ∈ (["e.x", "e.x2"] : List String) := by
  exact ⟨by decide, by decide⟩

/-- C2 (amended): `increment_path` returns the path unchanged when it
does not exist, or exists with `exist_ok`; otherwise it appends
`max(matched numbers) + 1`, defaulting to `2`, reproducing the documented
examples (`{p0,p1,p3} ↦ p4`, no numeric siblings `↦ p2`).  The returned
path can collide with an existing entry when the stem-number scan misses
a sibling (e.g. paths whose stem drops an extension), so the final
no-collision guarantee of the claim is weakened to these characterizations. -/
theorem increment_path_amended :
    (∀ (existing : List String) (path : String) (ok : Bool),
        path ∉ existing → increment_path existing path ok = path)
  ∧ (∀ (existing : List String) (path : String),
        path ∈ existing → increment_path existing path true = path)
  ∧ (∀ (existing : List String) (path : String),
        path ∈ existing →
          increment_path existing path false
            = path ++ Nat.repr (nextSuffix existing path))
  ∧ increment_path ["runs/exp", "runs/exp0", "runs/exp1", "runs/exp3"]
      "runs/exp" false = "runs/exp4"
  ∧ increment_path ["runs/exp"] "runs/exp" false = "runs/exp2" := by
  refine ⟨?_, ?_, ?_, by decide, by decide⟩
  · intro existing path ok h
    simp [increment_path, h]
  · intro existing path h
    simp [increment_path, h]
  · intro existing path h
    simp [increment_path, h]

/-- Witness for `increment_path_amended`: a fresh path is returned
unchanged. -/
theorem increment_path_amended_witness :
    "runs/exp" ∉ (["other"] : List String)
  ∧ increment_path ["other"] "runs/exp" false = "runs/exp" :=
  ⟨by decide, increment_path_amended.1 ["other"] "runs/exp" false (by decide)⟩

theorem sum_map_correctCount (B : ℕ) (v : List (ℕ × ℕ)) :
    ((fullChunks B v).map correctCount).sum
      = correctCount (v.take (B * (v.length / B))) := by
  unfold correctCount
  rw [← fullChunks_flatten B v, List.countP_flatten]

/-- Counterexample to C3: with three all-correct validation samples and
batch size 2, the `drop_last=True` loader consumes only the first two, so
the reported accuracy is 2/3, not the 3/3 demanded by the
whole-validation-set reading of the claim. -/
theorem val_acc_dropped_tail :
    valAccOf 2 [(0, 0), (0, 0), (0, 0)] = some (2 / 3)
  ∧ correctCount [(0, 0), (0, 0), (0, 0)] = 3
  ∧ ((2 : ℚ) / 3) ≠ ((3 : ℚ) / 3) := by
  refine ⟨?_, by decide, by norm_num⟩
  have h : ((fullChunks 2 [(0, 0), (0, 0), (0, 0)]).map correctCount).sum = 2 := by
    decide
  unfold valAccOf
  rw [if_neg (by decide), h]
  norm_num

/-- C3 (amended): the VALIDATE phase accumulates loss and correct counts
over every yielded batch; the reported accuracy divides the correct count
of the consumed prefix (the first `B * (N / B)` samples, `drop_last=True`)
by the full validation-set size, the loss is the per-batch loss sum over
the number of yielded batches (`= N / B`), and every sample contributes
exactly when the batch size divides the set size. -/
theorem val_metrics_amended :
    (∀ (B : ℕ) (valSet : List (ℕ × ℕ)), valSet ≠ [] →
        valAccOf B valSet
          = some ((correctCount (valSet.take (B * (valSet.length / B))) : ℚ)
              / (valSet.length : ℚ)))
  ∧ (∀ (B : ℕ) (valSet : List (ℕ × ℕ)) (crit : List (ℕ × ℕ) → ℚ),
        0 < (fullChunks B valSet).length →
        valLossOf B valSet crit
          = some (((fullChunks B valSet).map crit).sum
              / ((fullChunks B valSet).length : ℚ)))
  ∧ (∀ (B : ℕ) (valSet : List (ℕ × ℕ)),
        (fullChunks B valSet).length = valSet.length / B)
  ∧ (∀ (B : ℕ) (valSet : List (ℕ × ℕ)), 0 < B → B ∣ valSet.length →
        valSet ≠ [] →
        valAccOf B valSet
          = some ((correctCount valSet : ℚ) / (valSet.length : ℚ))) := by
  have acc : ∀ (B : ℕ) (valSet : List (ℕ × ℕ)), valSet ≠ [] →
      valAccOf B valSet
        = some ((correctCount (valSet.take (B * (valSet.length / B))) : ℚ)
            / (valSet.length : ℚ)) := by
    intro B v h
    unfold valAccOf
    rw [if_neg (fun h0 => h (List.eq_nil_of_length_eq_zero h0)),
      sum_map_correctCount]
  refine ⟨acc, ?_, fullChunks_length, ?_⟩
  · intro B v crit h
    unfold valLossOf
    rw [if_neg (Nat.pos_iff_ne_zero.mp h)]
  · intro B v hB hdvd h
    rw [acc B v h, Nat.mul_div_cancel' hdvd, List.take_length]

/-- Witness for `val_metrics_amended`: a singleton validation set at
batch size 1. -/
theorem val_metrics_amended_witness :
    (([(0, 0)] : List (ℕ × ℕ)) ≠ [])
  ∧ valAccOf 1 [(0, 0)]
      = some ((correctCount (([(0, 0)] : List (ℕ × ℕ)).take
          (1 * (([(0, 0)] : List (ℕ × ℕ)).length / 1))) : ℚ)
            / (([(0, 0)] : List (ℕ × ℕ)).length : ℚ)) :=
  ⟨by decide, val_metrics_amended.1 1 [(0, 0)] (by decide)⟩

theorem maskEpochVal_params (B : ℕ) (valSet : List (ℕ × ℕ))
    (crit : List (ℕ × ℕ) → ℚ) (s : MaskRunState) :
    (maskEpochVal B valSet crit s).params = s.params := by
  unfold maskEpochVal
  cases h : valAccOf B valSet with
  | none => simp [h]
  | some a => simp only [h]; split <;> rfl

theorem maskEpochVal_last (B : ℕ) (valSet : List (ℕ × ℕ))
    (crit : List (ℕ × ℕ) → ℚ) (s : MaskRunState) :
    (maskEpochVal B valSet crit s).lastCkpt = some s.params := by
  unfold maskEpochVal
  cases h : valAccOf B valSet with
  | none => simp [h]
  | some a => simp only [h]; split <;> rfl

theorem gaEpochVal_params (B : ℕ) (valSet : List (ℕ × ℕ))
    (gCrit aCrit : List (ℕ × ℕ) → ℚ) (t : GaRunState) :
    (gaEpochVal B valSet gCrit aCrit t).params = t.params := by
  unfold gaEpochVal
  cases h : gaValLoss B valSet gCrit aCrit with
  | none => simp [h]
  | some q => simp only [h]; split <;> rfl

theorem gaEpochVal_last (B : ℕ) (valSet : List (ℕ × ℕ))
    (gCrit aCrit : List (ℕ × ℕ) → ℚ) (t : GaRunState) :
    (gaEpochVal B valSet gCrit aCrit t).lastCkpt = some t.params := by
  unfold gaEpochVal
  cases h : gaValLoss B valSet gCrit aCrit with
  | none => simp [h]
  | some q => simp only [h]; split <;> rfl

theorem maskEpochVal_best_some (B : ℕ) (valSet : List (ℕ × ℕ))
    (crit : List (ℕ × ℕ) → ℚ) (s : MaskRunState) (a : ℚ)
    (h : valAccOf B valSet = some a) :
    (maskEpochVal B valSet crit s).bestCkpt
      = if s.bestValAcc < a then some s.params else s.bestCkpt := by
  unfold maskEpochVal
  simp only [h]
  by_cases hlt : s.bestValAcc < a <;> simp [hlt]

theorem maskEpochVal_best_none (B : ℕ) (valSet : List (ℕ × ℕ))
    (crit : List (ℕ × ℕ) → ℚ) (s : MaskRunState)
    (h : valAccOf B valSet = none) :
    (maskEpochVal B valSet crit s).bestCkpt = s.bestCkpt := by
  unfold maskEpochVal
  simp [h]

theorem gaEpochVal_best_some (B : ℕ) (valSet : List (ℕ × ℕ))
    (gCrit aCrit : List (ℕ × ℕ) → ℚ) (t : GaRunState) (q : ℚ)
    (h : gaValLoss B valSet gCrit aCrit = some q) :
    (gaEpochVal B valSet gCrit aCrit t).bestCkpt
      = if (q : WithTop ℚ) < t.bestValLoss then some t.params else t.bestCkpt := by
  unfold gaEpochVal
  simp only [h]
  by_cases hlt : (q : WithTop ℚ) < t.bestValLoss <;> simp [hlt]

theorem gaEpochVal_best_none (B : ℕ) (valSet : List (ℕ × ℕ))
    (gCrit aCrit : List (ℕ × ℕ) → ℚ) (t : GaRunState)
    (h : gaValLoss B valSet gCrit aCrit = none) :
    (gaEpochVal B valSet gCrit aCrit t).bestCkpt = t.bestCkpt := by
  unfold gaEpochVal
  simp [h]

/-- C8: in both training loops the VALIDATE phase leaves the learnable
parameters untouched (it performs no backward pass and no optimizer
step), so the parameters entering the TRAIN phase of the next epoch are
exactly those produced by the TRAIN phase of the current epoch. -/
theorem validate_preserves_params :
    (∀ (B : ℕ) (valSet : List (ℕ × ℕ)) (crit : List (ℕ × ℕ) → ℚ)
        (s : MaskRunState),
        (maskEpochVal B valSet crit s).params = s.params)
  ∧ (∀ (B : ℕ) (valSet : List (ℕ × ℕ)) (gCrit aCrit : List (ℕ × ℕ) → ℚ)
        (t : GaRunState),
        (gaEpochVal B valSet gCrit aCrit t).params = t.params)
  ∧ (∀ (trainStep : ℕ → ℕ) (B : ℕ) (valSet : List (ℕ × ℕ))
        (crit : List (ℕ × ℕ) → ℚ) (s : MaskRunState),
        (maskEpoch trainStep B valSet crit s).params = trainStep s.params)
  ∧ (∀ (trainStep : ℕ → ℕ) (B : ℕ) (valSet : List (ℕ × ℕ))
        (gCrit aCrit : List (ℕ × ℕ) → ℚ) (t : GaRunState),
        (gaEpoch trainStep B valSet gCrit aCrit t).params = trainStep t.params) := by
  refine ⟨maskEpochVal_params, gaEpochVal_params, ?_, ?_⟩
  · intro trainStep B valSet crit s
    unfold maskEpoch
    rw [maskEpochVal_params]
  · intro trainStep B valSet gCrit aCrit t
    unfold gaEpoch
    rw [gaEpochVal_params]

/-- Counterexample to the failure claim of C10: a validation set smaller than
the batch size yields zero batches, the loss computation divides zero by
zero giving NaN (`none`), yet the epoch still completes — an accuracy of
0 is reported and `last.pth` is written — instead of the run failing
before reporting metrics. -/
theorem small_valset_reports_nan :
    valLossOf 2 [(0, 0)] (fun _ => 0) = none
  ∧ valAccOf 2 [(0, 0)] = some 0
  ∧ (maskEpochVal 2 [(0, 0)] (fun _ => 0) (maskInit 5)).lastCkpt = some 5 := by
  have hchunks : fullChunks 2 [(0, 0)] = ([] : List (List (ℕ × ℕ))) := by decide
  have hloss : valLossOf 2 [(0, 0)] (fun _ => (0 : ℚ)) = none := by
    unfold valLossOf
    rw [hchunks]
    norm_num
  have hacc : valAccOf 2 [(0, 0)] = some 0 := by
    unfold valAccOf
    rw [if_neg (by decide), hchunks]
    norm_num
  exact ⟨hloss, hacc, maskEpochVal_last 2 [(0, 0)] (fun _ => 0) (maskInit 5)⟩

/-- C10 (amended): all four loaders are built with `drop_last=True`, so an
epoch consumes exactly the first `B * (N / B)` samples; when the
validation set is smaller than the batch size the loader yields zero
batches and the loss computation divides by zero — under numpy semantics
this produces NaN rather than raising, the epoch still reports metrics
(NaN loss, accuracy 0) and writes `last.pth`, and the visualization
figure is never created (whose later logging is the first thing that can
actually fail, outside this embedding). -/
theorem drop_last_amended :
    maskTrainLoaderCfg.dropLast = true
  ∧ maskValLoaderCfg.dropLast = true
  ∧ gaTrainLoaderCfg.dropLast = true
  ∧ gaValLoaderCfg.dropLast = true
  ∧ (∀ (B : ℕ) (l : List (ℕ × ℕ)),
        (fullChunks B l).flatten = l.take (B * (l.length / B)))
  ∧ (∀ (B : ℕ) (valSet : List (ℕ × ℕ)) (crit : List (ℕ × ℕ) → ℚ)
        (s : MaskRunState), valSet.length < B →
          fullChunks B valSet = []
        ∧ valLossOf B valSet crit = none
        ∧ maskValFigureCreated B valSet = false
        ∧ (valSet ≠ [] → valAccOf B valSet = some 0)
        ∧ (maskEpochVal B valSet crit s).lastCkpt = some s.params) := by
  refine ⟨rfl, rfl, rfl, rfl, fun B l => fullChunks_flatten B l, ?_⟩
  intro B valSet crit s h
  have hc : fullChunks B valSet = [] := fullChunks_nil_of_lt B valSet h
  refine ⟨hc, ?_, ?_, ?_, maskEpochVal_last B valSet crit s⟩
  · unfold valLossOf
    rw [hc]
    norm_num
  · unfold maskValFigureCreated
    rw [hc]
    rfl
  · intro hne
    unfold valAccOf
    rw [if_neg (fun h0 => hne (List.eq_nil_of_length_eq_zero h0)), hc]
    norm_num

/-- Witness for `drop_last_amended`: one sample, batch size two. -/
theorem drop_last_amended_witness :
    ([(0, 0)] : List (ℕ × ℕ)).length < 2
  ∧ (fullChunks 2 [(0, 0)] = []
    ∧ valLossOf 2 [(0, 0)] (fun _ => 0) = none
    ∧ maskValFigureCreated 2 [(0, 0)] = false
    ∧ (([(0, 0)] : List (ℕ × ℕ)) ≠ [] → valAccOf 2 [(0, 0)] = some 0)
    ∧ (maskEpochVal 2 [(0, 0)] (fun _ => 0) (maskInit 5)).lastCkpt = some 5) :=
  ⟨by decide,
   drop_last_amended.2.2.2.2.2 2 [(0, 0)] (fun _ => 0) (maskInit 5) (by decide)⟩

/-- Counterexample to the existence claim of C1: the initial best accuracy is
0 and the best checkpoint is written only on a strict improvement, so a
first epoch whose validation accuracy is exactly 0 (every prediction
wrong) ends with `last.pth` written but no `best.pth`. -/
theorem mask_first_epoch_best_absent :
    (maskEpochVal 1 [(0, 1)] (fun _ => 0) (maskInit 7)).bestCkpt = none
  ∧ (maskEpochVal 1 [(0, 1)] (fun _ => 0) (maskInit 7)).lastCkpt = some 7 := by
  have hacc : valAccOf 1 [(0, 1)] = some 0 := by
    have h : ((fullChunks 1 [(0, 1)]).map correctCount).sum = 0 := by decide
    unfold valAccOf
    rw [if_neg (by decide), h]
    norm_num
  constructor
  · rw [maskEpochVal_best_some 1 [(0, 1)] (fun _ => 0) (maskInit 7) 0 hacc]
    rw [if_neg (by norm_num [maskInit])]
    rfl
  · exact maskEpochVal_last 1 [(0, 1)] (fun _ => 0) (maskInit 7)

/-- C1 (amended): both loops start the best metric at its worst value
(accuracy 0, loss +∞), overwrite `last.pth` unconditionally at every
epoch end, and overwrite `best.pth` exactly on a strict improvement of
the epoch metric (never on a NaN metric).  Consequently after the first
epoch `last.pth` always exists, while `best.pth` exists provided the
first-epoch metric strictly improves on the initial value — any finite
combined loss for the multi-task loop, but only a strictly positive
accuracy for the single-task loop (it can be absent at accuracy 0). -/
theorem checkpoint_policy_amended :
    (∀ p : ℕ,
        (maskInit p).bestValAcc = 0 ∧ (maskInit p).bestCkpt = none
      ∧ (maskInit p).lastCkpt = none ∧ (gaInit p).bestValLoss = ⊤
      ∧ (gaInit p).bestCkpt = none ∧ (gaInit p).lastCkpt = none)
  ∧ (∀ (B : ℕ) (valSet : List (ℕ × ℕ)) (crit : List (ℕ × ℕ) → ℚ)
        (s : MaskRunState),
        (maskEpochVal B valSet crit s).lastCkpt = some s.params)
  ∧ (∀ (B : ℕ) (valSet : List (ℕ × ℕ)) (gCrit aCrit : List (ℕ × ℕ) → ℚ)
        (t : GaRunState),
        (gaEpochVal B valSet gCrit aCrit t).lastCkpt = some t.params)
  ∧ (∀ (B : ℕ) (valSet : List (ℕ × ℕ)) (crit : List (ℕ × ℕ) → ℚ)
        (s : MaskRunState) (a : ℚ), valAccOf B valSet = some a →
        (maskEpochVal B valSet crit s).bestCkpt
          = if s.bestValAcc < a then some s.params else s.bestCkpt)
  ∧ (∀ (B : ℕ) (valSet : List (ℕ × ℕ)) (crit : List (ℕ × ℕ) → ℚ)
        (s : MaskRunState), valAccOf B valSet = none →
        (maskEpochVal B valSet crit s).bestCkpt = s.bestCkpt)
  ∧ (∀ (B : ℕ) (valSet : List (ℕ × ℕ)) (gCrit aCrit : List (ℕ × ℕ) → ℚ)
        (t : GaRunState) (q : ℚ), gaValLoss B valSet gCrit aCrit = some q →
        (gaEpochVal B valSet gCrit aCrit t).bestCkpt
          = if (q : WithTop ℚ) < t.bestValLoss then some t.params else t.bestCkpt)
  ∧ (∀ (B : ℕ) (valSet : List (ℕ × ℕ)) (gCrit aCrit : List (ℕ × ℕ) → ℚ)
        (t : GaRunState), gaValLoss B valSet gCrit aCrit = none →
        (gaEpochVal B valSet gCrit aCrit t).bestCkpt = t.bestCkpt)
  ∧ (∀ (B : ℕ) (valSet : List (ℕ × ℕ)) (crit : List (ℕ × ℕ) → ℚ)
        (p : ℕ) (a : ℚ), valAccOf B valSet = some a → 0 < a →
        (maskEpochVal B valSet crit (maskInit p)).bestCkpt = some p
      ∧ (maskEpochVal B valSet crit (maskInit p)).lastCkpt = some p)
  ∧ (∀ (B : ℕ) (valSet : List (ℕ × ℕ)) (gCrit aCrit : List (ℕ × ℕ) → ℚ)
        (p : ℕ) (q : ℚ), gaValLoss B valSet gCrit aCrit = some q →
        (gaEpochVal B valSet gCrit aCrit (gaInit p)).bestCkpt = some p
      ∧ (gaEpochVal B valSet gCrit aCrit (gaInit p)).lastCkpt = some p) := by
  refine ⟨fun p => ⟨rfl, rfl, rfl, rfl, rfl, rfl⟩,
    maskEpochVal_last, gaEpochVal_last,
    maskEpochVal_best_some, maskEpochVal_best_none,
    gaEpochVal_best_some, gaEpochVal_best_none, ?_, ?_⟩
  · intro B valSet crit p a h hpos
    constructor
    · rw [maskEpochVal_best_some B valSet crit (maskInit p) a h,
        if_pos (show (maskInit p).bestValAcc < a from hpos)]
      rfl
    · exact maskEpochVal_last B valSet crit (maskInit p)
  · intro B valSet gCrit aCrit p q h
    constructor
    · rw [gaEpochVal_best_some B valSet gCrit aCrit (gaInit p) q h,
        if_pos (show (q : WithTop ℚ) < (gaInit p).bestValLoss from
          WithTop.coe_lt_top q)]
      rfl
    · exact gaEpochVal_last B valSet gCrit aCrit (gaInit p)

/-- Witness for `checkpoint_policy_amended`: a first epoch with accuracy
1 writes the best checkpoint. -/
theorem checkpoint_policy_amended_witness :
    valAccOf 1 [(1, 1)] = some 1
  ∧ (0 : ℚ) < 1
  ∧ (maskEpochVal 1 [(1, 1)] (fun _ => 0) (maskInit 0)).bestCkpt = some 0 := by
  have hacc : valAccOf 1 [(1, 1)] = some 1 := by
    have h : ((fullChunks 1 [(1, 1)]).map correctCount).sum = 1 := by decide
    unfold valAccOf
    rw [if_neg (by decide), h]
    norm_num
  exact ⟨hacc, by norm_num,
    (checkpoint_policy_amended.2.2.2.2.2.2.2.1 1 [(1, 1)] (fun _ => 0) 0 1 hacc
      (by norm_num)).1⟩

theorem argmaxAux_map [LinearOrder α] [LinearOrder β] (f : α → β)
    (hf : StrictMono f) :
    ∀ l : List α,
      argmaxAux (l.map f) = (argmaxAux l).map (fun jm => (jm.1, f jm.2)) := by
  intro l
  induction l with
  | nil => rfl
  | cons x xs ih =>
    simp only [List.map_cons, argmaxAux, ih]
    cases h : argmaxAux xs with
    | none => rfl
    | some jm =>
      by_cases hx : x < jm.2
      · simp [hx, hf hx]
      · simp [hx, hf.le_iff_le.mpr (not_lt.mp hx)]

theorem argmaxIdx_map [LinearOrder α] [LinearOrder β] (f : α → β)
    (hf : StrictMono f) (l : List α) :
    argmaxIdx (l.map f) = argmaxIdx l := by
  unfold argmaxIdx
  rw [argmaxAux_map f hf l]
  cases argmaxAux l <;> rfl

/-- C6: each soft-voting output row is the softmax of the logits of the image,
so it sums to exactly 1 (hence within `1e-6` of 1) and its arg-max
position equals the hard-mode prediction on the same logits; the output
header is the identifier followed by one probability column per class
named `0 .. num_classes - 1` with `num_classes = 18`, and no `ans` column
remains. -/
theorem inference_soft_spec (l : List ℝ) (h : l ≠ []) :
    (softmax l).sum = 1
  ∧ |(softmax l).sum - 1| ≤ 1 / 1000000
  ∧ argmaxIdx (softmax l) = argmaxIdx l
  ∧ numClasses = 18
  ∧ softOutputColumns = "ImageID" :: (List.range 18).map Nat.repr
  ∧ "ans" ∉ softOutputColumns := by
  have hS : 0 < (l.map Real.exp).sum := by
    apply List.sum_pos
    · intro x hx
      obtain ⟨y, _, rfl⟩ := List.mem_map.mp hx
      exact Real.exp_pos y
    · simpa using h
  have hsum : (softmax l).sum = 1 := by
    unfold softmax
    simp only [div_eq_mul_inv]
    rw [List.sum_map_mul_right]
    exact mul_inv_cancel₀ hS.ne'
  have hmono : StrictMono (fun x : ℝ => Real.exp x / (l.map Real.exp).sum) :=
    fun a b hab => (div_lt_div_iff_of_pos_right hS).mpr (Real.exp_lt_exp.mpr hab)
  refine ⟨hsum, ?_, ?_, rfl, rfl, by decide⟩
  · rw [hsum]
    norm_num
  · exact argmaxIdx_map _ hmono l

/-- Witness for `inference_soft_spec`: the one-logit row `[0]`. -/
theorem inference_soft_spec_witness :
    ([(0 : ℝ)] ≠ [])
  ∧ ((softmax [(0 : ℝ)]).sum = 1
    ∧ |(softmax [(0 : ℝ)]).sum - 1| ≤ 1 / 1000000
    ∧ argmaxIdx (softmax [(0 : ℝ)]) = argmaxIdx [(0 : ℝ)]
    ∧ numClasses = 18
    ∧ softOutputColumns = "ImageID" :: (List.range 18).map Nat.repr
    ∧ "ans" ∉ softOutputColumns) :=
  ⟨by simp, inference_soft_spec [(0 : ℝ)] (by simp)⟩
